import Mathlib

/-!
# Verification of the ratetrade trading core

Shallow embedding, in Lean 4, of the decision core of the `ratetrade`
repository: signal aggregation (`StrategyEngineService`), risk assessment and
position sizing (`RiskEngineService`), and simulated order execution
(`ExecutionService`).  Numeric values are modelled as rationals; the one
JavaScript division site that can divide by zero (the aggregation confidence)
is modelled with an explicit extended-number type so that the
infinity/NaN behaviour of the source is preserved.
-/

namespace RateTrade

/-- Action carried by a trading signal (`'BUY' | 'SELL' | 'CLOSE'`; the
aggregator additionally compares against the string `'HOLD'`). -/
inductive Action where
  | BUY
  | SELL
  | CLOSE
  | HOLD
deriving DecidableEq, Repr

/-- Extended number used to model the JavaScript arithmetic at the
aggregation-confidence division site: a finite rational, one of the two
infinities, or NaN. -/
inductive JsNum where
  | num : ℚ → JsNum
  | posInf : JsNum
  | negInf : JsNum
  | nan : JsNum
deriving DecidableEq, Repr

/-- Computes `(a / b) * 100` with JavaScript division semantics: dividing a nonzero
number by zero yields a signed infinity, `0 / 0` yields NaN. -/
def jsDivScaled (a b : ℚ) : JsNum :=
  if b = 0 then
    if 0 < a then .posInf else if a < 0 then .negInf else .nan
  else
    .num (a / b * 100)

/-- Models `Math.min(100, x)`: NaN propagates, `+∞` is capped at 100. -/
def jsMinHundred : JsNum → JsNum
  | .num q => .num (min 100 q)
  | .posInf => .num 100
  | .negInf => .negInf
  | .nan => .nan

/-- JavaScript `x > c` for an extended value against a finite threshold;
NaN compares false. -/
def JsNum.gtQ : JsNum → ℚ → Bool
  | .num q, c => decide (c < q)
  | .posInf, _ => true
  | .negInf, _ => false
  | .nan, _ => false

/-- A strategy signal (`Signal` of `src/types/index.ts`), restricted to the
fields the aggregation and sizing algorithms read. -/
structure Signal where
  symbol : String
  action : Action
  confidence : ℚ
  targetPrice : Option ℚ
  stopLoss : Option ℚ
  strategy : String
deriving DecidableEq, Repr

/-- A strategy configuration (`StrategyConfig`), restricted to the fields the
aggregator reads. -/
structure StrategyConfig where
  enabled : Bool
  symbols : List String
  weight : ℚ
deriving DecidableEq, Repr

/-- JavaScript truthiness of an optional numeric field: absent and `0` are
falsy. -/
def truthyQ : Option ℚ → Bool
  | some q => q != 0
  | none => false

/-- Models `this.strategyConfigs.get(signal.strategy)?.weight || 0.33`: a missing
config, or a configured weight of `0` (falsy in JavaScript), falls back to
`0.33`. -/
def sourceWeight (configs : List (String × StrategyConfig)) (strategy : String) : ℚ :=
  match configs.lookup strategy with
  | some c => if c.weight = 0 then 33/100 else c.weight
  | none => 33/100

/-- Weighted score of one action group:
`actionSignals.reduce((score, signal) => score + signal.confidence * weight, 0)`
over the signals carrying that action. -/
def actionScore (configs : List (String × StrategyConfig)) (signals : List Signal)
    (a : Action) : ℚ :=
  ((signals.filter (fun s => s.action == a)).map
    (fun s => s.confidence * sourceWeight configs s.strategy)).sum

/-- The distinct actions present among the signals, in first-occurrence order
(the insertion order of the keys of the `groupedSignals` object). -/
def actionKeys (signals : List Signal) : List Action :=
  signals.foldl (fun acc s => if s.action ∈ acc then acc else acc ++ [s.action]) []

/-- Models `Object.keys(actionScores).reduce((a, b) => actionScores[a] > actionScores[b] ? a : b)`;
the empty case is unreachable because the caller returns early on an empty
signal list. -/
def bestActionOf (score : Action → ℚ) : List Action → Action
  | [] => Action.HOLD
  | a :: rest => rest.foldl (fun x y => if score y < score x then x else y) a

/-- Computes `maxPossibleScore`: Σ `weight × 100` over the enabled configs whose symbol
list contains the instrument, whether or not the strategy fired. -/
def maxPossibleScore (configs : List (String × StrategyConfig)) (symbol : String) : ℚ :=
  ((configs.filter (fun c => c.2.enabled && c.2.symbols.contains symbol)).map
    (fun c => c.2.weight * 100)).sum

/-- Arithmetic mean of an optional field over the signals where it is truthy
(`bestSignals.filter(s => s.field)` then `reduce(...)/length`); `none` when no
signal supplies it. -/
def meanField (f : Signal → Option ℚ) (l : List Signal) : Option ℚ :=
  let valid := l.filter (fun s => truthyQ (f s))
  if valid.length = 0 then none
  else some (((valid.map (fun s => (f s).getD 0)).sum) / (valid.length : ℚ))

/-- The aggregated (resolved) signal emitted by the aggregator; its
`confidence` is the aggregation confidence, an extended number. -/
structure AggSignal where
  symbol : String
  action : Action
  confidence : JsNum
  targetPrice : Option ℚ
  stopLoss : Option ℚ
deriving DecidableEq, Repr

/-- Result of one aggregation cycle (`SignalAggregation`). -/
structure SignalAggregation where
  symbol : String
  signals : List Signal
  aggregatedSignal : Option AggSignal
  confidence : JsNum
deriving DecidableEq, Repr

/-- The confidence value computed by the aggregation algorithm:
`min(100, bestScore / maxPossibleScore * 100)` under JavaScript arithmetic,
`0` for an empty signal list. -/
def computedConfidence (configs : List (String × StrategyConfig)) (symbol : String)
    (signals : List Signal) : JsNum :=
  if signals.isEmpty then .num 0
  else
    let score := actionScore configs signals
    jsMinHundred (jsDivScaled (score (bestActionOf score (actionKeys signals)))
      (maxPossibleScore configs symbol))

/-- Models `aggregateSignals` of `StrategyEngineService`: group the signals by
action, score each group by confidence × source weight, take the best action,
normalise by the maximum possible score, and emit a resolved signal only when
the confidence exceeds 50 and the best action is not HOLD. -/
def aggregateSignals (configs : List (String × StrategyConfig)) (symbol : String)
    (signals : List Signal) : SignalAggregation :=
  if signals.isEmpty then
    { symbol := symbol, signals := signals, aggregatedSignal := none, confidence := .num 0 }
  else
    let score := actionScore configs signals
    let bestAction := bestActionOf score (actionKeys signals)
    let confidence := jsMinHundred (jsDivScaled (score bestAction)
      (maxPossibleScore configs symbol))
    let bestSignals := signals.filter (fun s => s.action == bestAction)
    let aggregatedSignal :=
      if confidence.gtQ 50 && !(bestAction == Action.HOLD) then
        some { symbol := symbol, action := bestAction, confidence := confidence,
               targetPrice := meanField (fun s => s.targetPrice) bestSignals,
               stopLoss := meanField (fun s => s.stopLoss) bestSignals }
      else none
    { symbol := symbol, signals := signals, aggregatedSignal := aggregatedSignal,
      confidence := confidence }

/-! ## Risk engine (`RiskEngineService`) -/

/-- Risk classification levels. -/
inductive RiskLevel where
  | LOW
  | MEDIUM
  | HIGH
  | CRITICAL
deriving DecidableEq, Repr

/-- The risk limits read by the assessment code. -/
structure RiskLimits where
  dailyLossLimit : ℚ
  maxLeverage : ℚ
  maxPositionSize : ℚ
  maxDrawdown : ℚ
deriving DecidableEq, Repr

/-- The authoritative risk snapshot (`RiskMetrics`), restricted to the fields
the claims read. -/
structure RiskMetrics where
  totalBalance : ℚ
  availableBalance : ℚ
  totalUnrealizedPnl : ℚ
  dailyPnL : ℚ
  maxDrawdown : ℚ
  riskLevel : RiskLevel
  isTradeAllowed : Bool
  marginUsage : ℚ
deriving DecidableEq, Repr

/-- Models `determineRiskLevel`: classify from
`dailyLossPercent = |dailyPnL / totalBalance| * 100` and the margin usage. -/
def determineRiskLevel (limits : RiskLimits) (dailyPnL totalBalance marginUsage : ℚ) :
    RiskLevel :=
  let dailyLossPercent := |dailyPnL / totalBalance| * 100
  if dailyLossPercent > limits.dailyLossLimit * (8/10) ∨ marginUsage > 80 then .CRITICAL
  else if dailyLossPercent > limits.dailyLossLimit * (6/10) ∨ marginUsage > 60 then .HIGH
  else if dailyLossPercent > limits.dailyLossLimit * (3/10) ∨ marginUsage > 40 then .MEDIUM
  else .LOW

/-- The pure core of `updateRiskMetrics`: margin usage
(`totalBalance > 0 ? totalMarginUsed / totalBalance * 100 : 0`), risk level,
and the trade-allowed flag (`riskLevel !== 'CRITICAL'`). -/
def riskSnapshot (limits : RiskLimits)
    (totalBalance availableBalance totalUnrealizedPnl dailyPnL maxDrawdownValue
      totalMarginUsed : ℚ) : RiskMetrics :=
  let marginUsage := if 0 < totalBalance then totalMarginUsed / totalBalance * 100 else 0
  let riskLevel := determineRiskLevel limits dailyPnL totalBalance marginUsage
  { totalBalance := totalBalance
    availableBalance := availableBalance
    totalUnrealizedPnl := totalUnrealizedPnl
    dailyPnL := dailyPnL
    maxDrawdown := maxDrawdownValue
    riskLevel := riskLevel
    isTradeAllowed := !(riskLevel == .CRITICAL)
    marginUsage := marginUsage }

/-- Risk level as the specification words it: CRITICAL when
`dailyLossPercent > 0.8 × limit` or `marginUsage > 80`, HIGH when
`> 0.6 × limit` or `> 60`, MEDIUM when `> 0.3 × limit` or `> 40`, else LOW.
Stated from the spec text, for comparison with `determineRiskLevel`. -/
def specRiskLevel (dailyLossLimit dailyLossPercent marginUsage : ℚ) : RiskLevel :=
  if dailyLossPercent > (8/10) * dailyLossLimit ∨ marginUsage > 80 then .CRITICAL
  else if dailyLossPercent > (6/10) * dailyLossLimit ∨ marginUsage > 60 then .HIGH
  else if dailyLossPercent > (3/10) * dailyLossLimit ∨ marginUsage > 40 then .MEDIUM
  else .LOW

/-- Position side used by the admission check. -/
inductive PosSide where
  | LONG
  | SHORT
deriving DecidableEq, Repr

/-- Admission assessment (`RiskAssessment`). -/
structure RiskAssessment where
  symbol : String
  isAllowed : Bool
  riskLevel : RiskLevel
  reasons : List String
  recommendedSize : ℚ
  recommendedLeverage : ℚ
  maxAllowedSize : ℚ
  stopLoss : ℚ
deriving DecidableEq, Repr

/-- Models `validatePosition` of `RiskEngineService`: reject immediately (with
`stopLoss` left at its initial `0`) when no snapshot exists or trading is not
allowed; otherwise accumulate leverage and position-size rejections and always
finish by computing the suggested stop-loss
(`riskAmount = totalBalance * 0.02`, `stopLossDistance = riskAmount / size`). -/
def validatePosition (metrics : Option RiskMetrics) (limits : RiskLimits)
    (symbol : String) (side : PosSide) (size leverage price : ℚ) : RiskAssessment :=
  let a0 : RiskAssessment :=
    { symbol := symbol, isAllowed := true, riskLevel := .LOW, reasons := [],
      recommendedSize := size, recommendedLeverage := leverage,
      maxAllowedSize := size, stopLoss := 0 }
  -- `!this.currentRiskMetrics?.isTradeAllowed`: a missing snapshot is falsy.
  if !(match metrics with | some m => m.isTradeAllowed | none => false) then
    { a0 with isAllowed := false,
              reasons := ["Trading not allowed due to high risk level"],
              riskLevel := .CRITICAL }
  else
    let a1 :=
      if leverage > limits.maxLeverage then
        { a0 with isAllowed := false,
                  reasons := a0.reasons ++ ["Leverage exceeds maximum"],
                  recommendedLeverage := limits.maxLeverage }
      else a0
    -- `this.currentRiskMetrics?.totalBalance || 0` (identity on rationals)
    let totalBalance := (match metrics with | some m => m.totalBalance | none => 0)
    let positionPercent := size * price / totalBalance * 100
    let a2 :=
      if positionPercent > limits.maxPositionSize then
        { a1 with isAllowed := false,
                  reasons := a1.reasons ++ ["Position size exceeds maximum"],
                  maxAllowedSize := totalBalance * limits.maxPositionSize / 100 / price,
                  recommendedSize := totalBalance * limits.maxPositionSize / 100 / price }
      else a1
    let riskAmount := totalBalance * (2/100)
    let stopLossDistance := riskAmount / size
    { a2 with stopLoss := if side = .LONG then price - stopLossDistance
                          else price + stopLossDistance }

/-- A sized proposal (`PositionSize`). -/
structure PositionSize where
  size : ℚ
  leverage : ℚ
  stopLoss : ℚ
  margin : ℚ
deriving DecidableEq, Repr

/-- The typed failure thrown by position sizing. -/
inductive RiskError where
  | riskMetricsNotAvailable
deriving DecidableEq, Repr

/-- Models `calculateOptimalPositionSize` of `RiskEngineService`: throws a
`RiskError` when no risk snapshot exists, otherwise sizes the trade from the
signal confidence, caps it at the maximum position value, scales leverage
with confidence, and derives the stop-loss and required margin. -/
def calculateOptimalPositionSize (limits : RiskLimits) (defaultLeverage : ℚ)
    (metrics : Option RiskMetrics) (signal : Signal) (currentPrice : ℚ) :
    Except RiskError PositionSize :=
  match metrics with
  | none => .error .riskMetricsNotAvailable
  | some m =>
    let maxRiskPerTrade : ℚ := 2/100
    let confidenceMultiplier := signal.confidence / 100
    let totalBalance := m.totalBalance
    let baseSize0 := totalBalance * maxRiskPerTrade * confidenceMultiplier / currentPrice
    let maxPositionValue := totalBalance * (limits.maxPositionSize / 100)
    let maxSize := maxPositionValue / currentPrice
    let baseSize := if baseSize0 > maxSize then maxSize else baseSize0
    let leverage :=
      min (⌈defaultLeverage * (1 + (signal.confidence - 50) / 100)⌉ : ℚ) limits.maxLeverage
    -- `signal.stopLoss ? |currentPrice - signal.stopLoss| : currentPrice * 0.02`
    let stopLossDistance :=
      if truthyQ signal.stopLoss then |currentPrice - (signal.stopLoss.getD 0)|
      else currentPrice * (2/100)
    let stopLoss :=
      if signal.action = .BUY then currentPrice - stopLossDistance
      else currentPrice + stopLossDistance
    let margin := baseSize * currentPrice / leverage
    .ok { size := baseSize, leverage := leverage, stopLoss := stopLoss, margin := margin }

/-- The order-creation gate of `handleTradingSignal` in `ExecutionService`:
a failed sizing request, or a non-positive size, creates no order. -/
def orderCreatedForSizing : Except RiskError PositionSize → Bool
  | .error _ => false
  | .ok p => decide (0 < p.size)

/-! ## Order execution (`ExecutionService`), simulated mode -/

/-- Order side. -/
inductive OrderSide where
  | BUY
  | SELL
deriving DecidableEq, Repr

/-- Order type (the variants exercised by the simulated path). -/
inductive OrderType where
  | MARKET
  | LIMIT
  | STOP
  | STOP_MARKET
deriving DecidableEq, Repr

/-- Canonical order lifecycle status. -/
inductive OrderStatus where
  | NEW
  | PARTIALLY_FILLED
  | FILLED
  | CANCELED
  | REJECTED
  | EXPIRED
deriving DecidableEq, Repr

/-- An order record (`Order`), with numeric ids standing in for the
`sim_<timestamp>_<random>` strings of the source. -/
structure Order where
  id : ℕ
  symbol : String
  side : OrderSide
  type : OrderType
  quantity : ℚ
  price : ℚ
  status : OrderStatus
  executedQty : ℚ
  averagePrice : ℚ
deriving DecidableEq, Repr

/-- A position (`Position`), restricted to the fields the simulated
reconciliation writes. -/
structure Position where
  symbol : String
  side : PosSide
  size : ℚ
  entryPrice : ℚ
  markPrice : ℚ
  unrealizedPnl : ℚ
  leverage : ℚ
  marginUsed : ℚ
deriving DecidableEq, Repr

/-- Models `calculateSlippage`: `max(0, 0.05 + log(orderValue / 10000) * 0.01)`.
The natural logarithm of the source (`Math.log`) is passed in as a function
parameter so that the development stays computable; every theorem below is
proved for an arbitrary `logFn`, or at a concrete instantiation. -/
def calculateSlippage (logFn : ℚ → ℚ) (quantity price : ℚ) : ℚ :=
  let orderValue := quantity * price
  let baseSlippage : ℚ := 5/100
  let volumeImpact := logFn (orderValue / 10000) * (1/100)
  max 0 (baseSlippage + volumeImpact)

/-- Models `applySlippage`: a BUY pays up by the slippage percentage, a SELL
receives less. -/
def applySlippage (price : ℚ) (side : OrderSide) (slippagePercent : ℚ) : ℚ :=
  let slippageFactor := slippagePercent / 100
  match side with
  | .BUY => price * (1 + slippageFactor)
  | .SELL => price * (1 - slippageFactor)

/-- The fee and balance update of `simulateOrderExecution`:
`fee = quantity * executedPrice * 0.0004`, `cost = quantity * executedPrice + fee`,
then `balance -= cost` for a BUY and `balance += cost - fee` for a SELL.
Returns `(fee, new balance)`. -/
def simulateFill (side : OrderSide) (quantity executedPrice balance : ℚ) : ℚ × ℚ :=
  let fee := quantity * executedPrice * (4/10000)
  let cost := quantity * executedPrice + fee
  match side with
  | .BUY => (fee, balance - cost)
  | .SELL => (fee, balance + (cost - fee))

/-- One step of the simulated position replay in `getSimulatedPositions`:
apply one (FILLED) order to the per-symbol position list.  Note that the
entry-price recomputation reads `existing.size` after the size has already
been updated. -/
def applyFilledOrder (positions : List Position) (o : Order) : List Position :=
  if o.status == .FILLED then
    match positions.find? (fun p => p.symbol == o.symbol) with
    | some existing =>
        let newSize :=
          if o.side == .BUY then existing.size + o.executedQty
          else existing.size - o.executedQty
        let newEntry :=
          if 0 < newSize then
            (existing.entryPrice * (newSize - o.executedQty)
              + o.averagePrice * o.executedQty) / newSize
          else existing.entryPrice
        positions.map (fun p =>
          if p.symbol == o.symbol then { p with size := newSize, entryPrice := newEntry }
          else p)
    | none =>
        positions ++ [{ symbol := o.symbol,
                        side := if o.side == .BUY then .LONG else .SHORT,
                        size := o.executedQty,
                        entryPrice := o.averagePrice,
                        markPrice := o.averagePrice,
                        unrealizedPnl := 0,
                        leverage := 1,
                        marginUsed := o.executedQty * o.averagePrice }]
  else positions

/-- Models `getSimulatedPositions`: replay the order history in insertion order and
keep only the positions with positive size. -/
def getSimulatedPositions (orderHistory : List Order) : List Position :=
  (orderHistory.foldl applyFilledOrder []).filter (fun p => decide (0 < p.size))

/-- Local retry-tracking status of a pending order. -/
inductive ExecStatus where
  | PENDING
  | EXECUTING
  | COMPLETED
  | FAILED
  | CANCELLED
deriving DecidableEq, Repr

/-- A tracked pending order (`OrderExecution`); the wall-clock timestamp of
the source is not modelled. -/
structure OrderExecution where
  orderId : ℕ
  status : ExecStatus
  attempts : ℕ
deriving DecidableEq, Repr

/-- The in-memory state of `ExecutionService` in simulated mode.  The order
history and the pending-order map are insertion-ordered association lists;
`isExecuting` stands for both the flag and the live `setInterval` handle,
which the source always sets and clears together. -/
structure ExecState where
  simulatedBalance : ℚ
  orderHistory : List Order
  pendingOrders : List (ℕ × OrderExecution)
  isExecuting : Bool
  marketData : List (String × ℚ)
  nextOrderId : ℕ
deriving DecidableEq, Repr

/-- JavaScript `x || d` on an optional number: absent and `0` fall through. -/
def orElseNum (o : Option ℚ) (d : ℚ) : ℚ :=
  match o with
  | none => d
  | some x => if x = 0 then d else x

/-- Parameters of an order-creation request. -/
structure OrderParams where
  symbol : String
  side : OrderSide
  type : OrderType
  quantity : ℚ
  price : Option ℚ
deriving DecidableEq, Repr

/-- Models `simulateOrderExecution`: resolve the reference price
(`marketData?.price || price || 0`), apply the slippage model for market
orders, charge the taker fee, update the simulated balance, and return the
immediately-FILLED order. -/
def simulateOrderExecution (logFn : ℚ → ℚ) (s : ExecState) (params : OrderParams) :
    Order × ExecState :=
  let currentPrice := orElseNum (s.marketData.lookup params.symbol)
    (orElseNum params.price 0)
  let slippage := calculateSlippage logFn params.quantity currentPrice
  let executedPrice :=
    if params.type == .MARKET then applySlippage currentPrice params.side slippage
    -- non-market orders execute at the request's `price`; a request without
    -- one is undefined in the source and modelled as 0 here (unused below:
    -- every order the claims exercise is a market order)
    else params.price.getD 0
  let fill := simulateFill params.side params.quantity executedPrice s.simulatedBalance
  let order : Order :=
    { id := s.nextOrderId, symbol := params.symbol, side := params.side,
      type := params.type, quantity := params.quantity, price := executedPrice,
      status := .FILLED, executedQty := params.quantity, averagePrice := executedPrice }
  (order, { s with simulatedBalance := fill.2, nextOrderId := s.nextOrderId + 1 })

/-- Models `createOrder` in simulated mode: simulate the execution, store the order
in the history, and start tracking it in the pending-order map. -/
def createOrderSim (logFn : ℚ → ℚ) (s : ExecState) (params : OrderParams) : ExecState :=
  let r := simulateOrderExecution logFn s params
  { r.2 with
      orderHistory := r.2.orderHistory ++ [r.1],
      pendingOrders := r.2.pendingOrders ++
        [(r.1.id, { orderId := r.1.id, status := .PENDING, attempts := 0 })] }

/-- Models `cancelOrder` in simulated mode: when the order record is found, mark it
CANCELED and remove it from the pending-order map; when it is not found,
report failure and leave the state unchanged. -/
def cancelOrderSim (s : ExecState) (orderId : ℕ) : ExecState × Bool :=
  match s.orderHistory.find? (fun o => o.id == orderId) with
  | none => (s, false)
  | some _ =>
      ({ s with
          orderHistory := s.orderHistory.map (fun o =>
            if o.id == orderId then { o with status := .CANCELED } else o),
          pendingOrders := s.pendingOrders.filter (fun pr => pr.1 != orderId) }, true)

/-- Models `closeSimulatedPosition`: look up the open position for the symbol and,
when present, create an opposing-side market order of its full size. -/
def closeSimulatedPositionSim (logFn : ℚ → ℚ) (s : ExecState) (symbol : String) :
    ExecState :=
  match (getSimulatedPositions s.orderHistory).find? (fun p => p.symbol == symbol) with
  | none => s
  | some position =>
      let side := if position.side == .LONG then OrderSide.SELL else OrderSide.BUY
      createOrderSim logFn s
        { symbol := symbol, side := side, type := .MARKET,
          quantity := position.size, price := none }

/-- Models `closeAllPositions` in simulated mode: close each open position in turn. -/
def closeAllPositionsSim (logFn : ℚ → ℚ) (s : ExecState) : ExecState :=
  ((getSimulatedPositions s.orderHistory).map (fun p => p.symbol)).foldl
    (fun st sym => closeSimulatedPositionSim logFn st sym) s

/-- Models `stopOrderExecution`: clear the executing flag and the monitoring
interval (a no-op when not executing). -/
def stopOrderExecutionSim (s : ExecState) : ExecState :=
  if s.isExecuting then { s with isExecuting := false } else s

/-- The first phase of `emergencyStop`: call `cancelOrder` on every key of
the pending-order map (the keys captured at entry). -/
def cancelAllPendingPhase (s : ExecState) : ExecState :=
  (s.pendingOrders.map (fun pr => pr.1)).foldl (fun st i => (cancelOrderSim st i).1) s

/-- Models `emergencyStop` of `ExecutionService`: cancel every tracked pending
order, attempt close-all, then halt the monitoring loop. -/
def emergencyStopSim (logFn : ℚ → ℚ) (s : ExecState) : ExecState :=
  stopOrderExecutionSim (closeAllPositionsSim logFn (cancelAllPendingPhase s))

/-- The aggregated confidence is a finite rational within `[0, 100]`. -/
def confidenceInRange (c : JsNum) : Prop :=
  ∃ q : ℚ, c = .num q ∧ 0 ≤ q ∧ q ≤ 100

/-! ## Concrete instances used by witnesses and counterexamples -/

/-- A zero-confidence BUY signal from an unconfigured source. -/
def sigZero : Signal :=
  { symbol := "BTCUSDT", action := .BUY, confidence := 0,
    targetPrice := none, stopLoss := none, strategy := "alpha" }

/-- A confidence-80 BUY signal from an unconfigured source. -/
def sigEighty : Signal := { sigZero with confidence := 80 }

/-- Spec scenario configuration: three enabled sources weighted 0.4/0.3/0.3. -/
def scenarioConfigs : List (String × StrategyConfig) :=
  [("a", { enabled := true, symbols := ["BTCUSDT"], weight := 4/10 }),
   ("b", { enabled := true, symbols := ["BTCUSDT"], weight := 3/10 }),
   ("c", { enabled := true, symbols := ["BTCUSDT"], weight := 3/10 })]

/-- Scenario signal: BUY at confidence 70 from source `a`. -/
def sigA : Signal := { sigZero with confidence := 70, strategy := "a" }

/-- Scenario signal: BUY at confidence 65 from source `b`. -/
def sigB : Signal := { sigZero with confidence := 65, strategy := "b" }

/-- Scenario signal: SELL at confidence 70 from source `c`. -/
def sigC : Signal := { sigZero with confidence := 70, strategy := "c", action := .SELL }

/-- Scenario risk limits. -/
def limitsW : RiskLimits :=
  { dailyLossLimit := 5, maxLeverage := 10, maxPositionSize := 30, maxDrawdown := 15 }

/-- A snapshot with trading blocked. -/
def metricsBlocked : RiskMetrics :=
  { totalBalance := 1000, availableBalance := 1000, totalUnrealizedPnl := 0, dailyPnL := 0,
    maxDrawdown := 0, riskLevel := .CRITICAL, isTradeAllowed := false, marginUsage := 0 }

/-- A healthy snapshot over the same balances. -/
def metricsOk : RiskMetrics :=
  { metricsBlocked with isTradeAllowed := true, riskLevel := .LOW }

/-- A filled BUY of 3 units at price 10. -/
def orderBuy3 : Order :=
  { id := 0, symbol := "BTCUSDT", side := .BUY, type := .MARKET, quantity := 3, price := 10,
    status := .FILLED, executedQty := 3, averagePrice := 10 }

/-- A filled SELL of 1 unit at price 20. -/
def orderSell1 : Order :=
  { orderBuy3 with id := 1, side := .SELL, quantity := 1, executedQty := 1,
                   averagePrice := 20, price := 20 }

/-- An open LONG position of 3 units at entry 10. -/
def posLong3 : Position :=
  { symbol := "BTCUSDT", side := .LONG, size := 3, entryPrice := 10, markPrice := 10,
    unrealizedPnl := 0, leverage := 1, marginUsed := 30 }

/-- A filled BUY of 1 unit at price 20. -/
def orderBuy1At20 : Order :=
  { orderBuy3 with id := 2, quantity := 1, executedQty := 1, averagePrice := 20, price := 20 }

/-- The position `posLong3` after `orderBuy1At20` is applied to it. -/
def posAfterBuy : Position := { posLong3 with size := 4, entryPrice := 25/2 }

/-- Execution state with one filled BUY in the history, nothing pending, the
monitor running — the normal simulated-mode state one tick after a fill. -/
def execStateOpen : ExecState :=
  { simulatedBalance := 100000, orderHistory := [orderBuy3], pendingOrders := [],
    isExecuting := true, marketData := [("BTCUSDT", 100)], nextOrderId := 1 }

/-- Execution state whose single pending order is present in the history. -/
def execStateTracked : ExecState :=
  { execStateOpen with
      pendingOrders := [(0, { orderId := 0, status := .PENDING, attempts := 0 })] }

/-! ## Aggregation lemmas -/

/-- The effective source weight is positive whenever the configured weights
are nonnegative (a zero weight falls back to `0.33`). -/
theorem sourceWeight_pos (configs : List (String × StrategyConfig)) (strat : String)
    (hw : ∀ p ∈ configs, (0:ℚ) ≤ p.2.weight) : 0 < sourceWeight configs strat := by
  rw [sourceWeight]
  cases hc : configs.lookup strat with
  | none => norm_num
  | some c =>
    obtain ⟨l₁, l₂, hsplit, -⟩ := List.lookup_eq_some_iff.mp hc
    have hcw : (0:ℚ) ≤ c.weight := hw (strat, c) (by rw [hsplit]; simp)
    show (0:ℚ) < if c.weight = 0 then 33/100 else c.weight
    by_cases h0 : c.weight = 0
    · rw [if_pos h0]; norm_num
    · rw [if_neg h0]; exact lt_of_le_of_ne hcw (Ne.symm h0)

/-- Every action group scores nonnegatively when all confidences and weights
are nonnegative. -/
theorem actionScore_nonneg (configs : List (String × StrategyConfig))
    (signals : List Signal) (a : Action)
    (hconf : ∀ s ∈ signals, (0:ℚ) ≤ s.confidence)
    (hw : ∀ p ∈ configs, (0:ℚ) ≤ p.2.weight) :
    0 ≤ actionScore configs signals a := by
  apply List.sum_nonneg
  intro x hx
  simp only [List.mem_map, List.mem_filter] at hx
  obtain ⟨s, ⟨hs, -⟩, rfl⟩ := hx
  exact mul_nonneg (hconf s hs) (le_of_lt (sourceWeight_pos configs s.strategy hw))

/-- A single signal's contribution bounds its action's score from below. -/
theorem actionScore_ge_term (configs : List (String × StrategyConfig))
    (signals : List Signal) (s : Signal) (hs : s ∈ signals)
    (hconf : ∀ t ∈ signals, (0:ℚ) ≤ t.confidence)
    (hw : ∀ p ∈ configs, (0:ℚ) ≤ p.2.weight) :
    s.confidence * sourceWeight configs s.strategy ≤ actionScore configs signals s.action := by
  apply List.single_le_sum
  · intro x hx
    simp only [List.mem_map, List.mem_filter] at hx
    obtain ⟨t, ⟨ht, -⟩, rfl⟩ := hx
    exact mul_nonneg (hconf t ht) (le_of_lt (sourceWeight_pos configs t.strategy hw))
  · exact List.mem_map_of_mem _ (List.mem_filter.mpr ⟨hs, by simp⟩)

/-- The value `maxPossibleScore` is nonnegative when the configured weights are. -/
theorem maxPossibleScore_nonneg (configs : List (String × StrategyConfig)) (symbol : String)
    (hw : ∀ p ∈ configs, (0:ℚ) ≤ p.2.weight) :
    0 ≤ maxPossibleScore configs symbol := by
  apply List.sum_nonneg
  intro x hx
  simp only [List.mem_map, List.mem_filter] at hx
  obtain ⟨c, ⟨hc, -⟩, rfl⟩ := hx
  have := hw c hc
  positivity

/-- The accumulator of the best-action fold never scores above the result. -/
theorem score_le_foldl_best (f : Action → ℚ) :
    ∀ (l : List Action) (a : Action),
      f a ≤ f (l.foldl (fun x y => if f y < f x then x else y) a) := by
  intro l
  induction l with
  | nil => intro a; simp
  | cons b t ih =>
    intro a
    simp only [List.foldl_cons]
    by_cases h : f b < f a
    · rw [if_pos h]; exact ih a
    · rw [if_neg h]; exact le_trans (le_of_not_lt h) (ih b)

/-- No element of the folded list scores above the result of the
best-action fold. -/
theorem mem_score_le_foldl_best (f : Action → ℚ) :
    ∀ (l : List Action) (a x : Action), x ∈ l →
      f x ≤ f (l.foldl (fun x y => if f y < f x then x else y) a) := by
  intro l
  induction l with
  | nil => intro a x hx; cases hx
  | cons b t ih =>
    intro a x hx
    simp only [List.foldl_cons]
    rcases List.mem_cons.mp hx with rfl | hx
    · refine le_trans ?_ (score_le_foldl_best f t _)
      by_cases h : f x < f a
      · rw [if_pos h]; exact le_of_lt h
      · rw [if_neg h]
    · exact ih _ x hx

/-- The best action scores at least as high as any action in the key list. -/
theorem score_le_bestActionOf (f : Action → ℚ) (l : List Action) (x : Action)
    (hx : x ∈ l) : f x ≤ f (bestActionOf f l) := by
  cases l with
  | nil => cases hx
  | cons a t =>
    rcases List.mem_cons.mp hx with rfl | hx
    · exact score_le_foldl_best f t x
    · exact mem_score_le_foldl_best f t a x hx

/-- The accumulator of the `actionKeys` fold only grows. -/
theorem subset_foldl_actionKeys :
    ∀ (l : List Signal) (acc : List Action),
      acc ⊆ l.foldl (fun acc s => if s.action ∈ acc then acc else acc ++ [s.action]) acc := by
  intro l
  induction l with
  | nil => intro acc; exact fun _ h => h
  | cons s t ih =>
    intro acc
    simp only [List.foldl_cons]
    refine Set.Subset.trans ?_ (ih _)
    by_cases h : s.action ∈ acc
    · rw [if_pos h]
    · rw [if_neg h]; exact List.subset_append_left _ _

/-- Every signal's action appears in the `actionKeys` fold result. -/
theorem action_mem_foldl_actionKeys :
    ∀ (l : List Signal) (acc : List Action) (s : Signal), s ∈ l →
      s.action ∈ l.foldl (fun acc s => if s.action ∈ acc then acc else acc ++ [s.action]) acc := by
  intro l
  induction l with
  | nil => intro acc s hs; cases hs
  | cons u t ih =>
    intro acc s hs
    simp only [List.foldl_cons]
    rcases List.mem_cons.mp hs with rfl | hs
    · refine subset_foldl_actionKeys t _ ?_
      by_cases h : s.action ∈ acc
      · rw [if_pos h]; exact h
      · rw [if_neg h]; simp
    · exact ih _ s hs

/-- Every signal's action appears among the aggregation's action keys. -/
theorem action_mem_actionKeys (signals : List Signal) (s : Signal) (hs : s ∈ signals) :
    s.action ∈ actionKeys signals :=
  action_mem_foldl_actionKeys signals [] s hs

/-- The decision's confidence field is always the computed confidence. -/
theorem aggregateSignals_confidence_eq (configs : List (String × StrategyConfig))
    (symbol : String) (signals : List Signal) :
    (aggregateSignals configs symbol signals).confidence
      = computedConfidence configs symbol signals := by
  by_cases h : signals.isEmpty <;>
    simp [aggregateSignals, computedConfidence, h]

/-- Range of the computed confidence, given a positive maximum possible score
or at least one strictly positive signal confidence. -/
theorem computedConfidence_in_range (configs : List (String × StrategyConfig))
    (symbol : String) (signals : List Signal)
    (hne : signals ≠ [])
    (hconf : ∀ s ∈ signals, (0:ℚ) ≤ s.confidence ∧ s.confidence ≤ 100)
    (hw : ∀ p ∈ configs, (0:ℚ) ≤ p.2.weight ∧ p.2.weight ≤ 1)
    (hpos : 0 < maxPossibleScore configs symbol ∨ ∃ s ∈ signals, 0 < s.confidence) :
    confidenceInRange (computedConfidence configs symbol signals) := by
  have hconf0 : ∀ s ∈ signals, (0:ℚ) ≤ s.confidence := fun s hs => (hconf s hs).1
  have hw0 : ∀ p ∈ configs, (0:ℚ) ≤ p.2.weight := fun p hp => (hw p hp).1
  have hB : signals.isEmpty = false := by
    cases signals with
    | nil => exact absurd rfl hne
    | cons a t => rfl
  simp only [computedConfidence, hB, Bool.false_eq_true, if_false]
  set score := actionScore configs signals with hscore
  set best := bestActionOf score (actionKeys signals) with hbest
  have hbest0 : 0 ≤ score best := actionScore_nonneg configs signals best hconf0 hw0
  by_cases hmp : maxPossibleScore configs symbol = 0
  · rcases hpos with hgt | ⟨s, hs, hsc⟩
    · exact absurd hmp (ne_of_gt hgt)
    · have h1 : s.confidence * sourceWeight configs s.strategy ≤ score s.action :=
        actionScore_ge_term configs signals s hs hconf0 hw0
      have h2 : score s.action ≤ score best :=
        score_le_bestActionOf score (actionKeys signals) s.action
          (action_mem_actionKeys signals s hs)
      have hsp : 0 < score best :=
        lt_of_lt_of_le (mul_pos hsc (sourceWeight_pos configs s.strategy hw0))
          (le_trans h1 h2)
      rw [jsDivScaled, if_pos hmp, if_pos hsp]
      exact ⟨100, rfl, by norm_num, le_refl 100⟩
  · have hmpos : 0 < maxPossibleScore configs symbol :=
      lt_of_le_of_ne (maxPossibleScore_nonneg configs symbol hw0) (Ne.symm hmp)
    rw [jsDivScaled, if_neg hmp]
    refine ⟨min 100 (score best / maxPossibleScore configs symbol * 100), rfl, ?_, min_le_left _ _⟩
    exact le_min (by norm_num)
      (mul_nonneg (div_nonneg hbest0 (le_of_lt hmpos)) (by norm_num))

/-- C3 — counterexample to the claim as stated: a non-empty signal set whose
only signal has confidence 0 (within `[0, 100]`) and an empty config map
(total enabled weight 0) yields `0 / 0`, i.e. NaN, so the returned confidence
is not in `[0, 100]`. -/
theorem C3_confidence_nan_counterexample :
    [sigZero] ≠ ([] : List Signal) ∧
    (∀ s ∈ [sigZero], (0:ℚ) ≤ s.confidence ∧ s.confidence ≤ 100) ∧
    (aggregateSignals [] "BTCUSDT" [sigZero]).confidence = JsNum.nan ∧
    ¬ confidenceInRange (aggregateSignals [] "BTCUSDT" [sigZero]).confidence := by
  have hnan : (aggregateSignals [] "BTCUSDT" [sigZero]).confidence = JsNum.nan := by
    norm_num [aggregateSignals, actionScore, sourceWeight, actionKeys, bestActionOf,
      maxPossibleScore, jsDivScaled, jsMinHundred, sigZero, List.lookup]
  refine ⟨by simp, by norm_num [sigZero], hnan, ?_⟩
  rintro ⟨q, hq, -, -⟩
  rw [hnan] at hq
  exact JsNum.noConfusion hq

/-- C3 (amended): for every non-empty signal list with confidences in
`[0, 100]` and config weights in `[0, 1]`, the aggregated confidence is a
rational in `[0, 100]` provided the maximum possible score is positive or
some signal has strictly positive confidence (otherwise the JavaScript
division `0 / 0` makes it NaN). -/
theorem C3_aggregated_confidence_in_range (configs : List (String × StrategyConfig))
    (symbol : String) (signals : List Signal)
    (hne : signals ≠ [])
    (hconf : ∀ s ∈ signals, (0:ℚ) ≤ s.confidence ∧ s.confidence ≤ 100)
    (hw : ∀ p ∈ configs, (0:ℚ) ≤ p.2.weight ∧ p.2.weight ≤ 1)
    (hpos : 0 < maxPossibleScore configs symbol ∨ ∃ s ∈ signals, 0 < s.confidence) :
    confidenceInRange (aggregateSignals configs symbol signals).confidence := by
  rw [aggregateSignals_confidence_eq]
  exact computedConfidence_in_range configs symbol signals hne hconf hw hpos

/-- C3 witness: the range property at spec scenario 1 (three sources
weighted 0.4/0.3/0.3 emitting BUY@70, BUY@65, SELL@70). -/
theorem C3_aggregated_confidence_witness :
    confidenceInRange (aggregateSignals scenarioConfigs "BTCUSDT" [sigA, sigB, sigC]).confidence :=
  C3_aggregated_confidence_in_range scenarioConfigs "BTCUSDT" [sigA, sigB, sigC]
    (by simp) (by norm_num [sigA, sigB, sigC, sigZero])
    (by norm_num [scenarioConfigs])
    (Or.inl (by norm_num [maxPossibleScore, scenarioConfigs]))

/-- C7: every emitted resolved signal has confidence strictly above 50 and an
action other than HOLD; and the decision always carries the computed
confidence (in particular also when the resolved signal is null). -/
theorem C7_resolved_signal_gate (configs : List (String × StrategyConfig))
    (symbol : String) (signals : List Signal) :
    ((aggregateSignals configs symbol signals).aggregatedSignal.all
      (fun s => s.confidence.gtQ 50 && !(s.action == Action.HOLD))) = true ∧
    (aggregateSignals configs symbol signals).confidence
      = computedConfidence configs symbol signals := by
  refine ⟨?_, aggregateSignals_confidence_eq configs symbol signals⟩
  by_cases hB : signals.isEmpty
  · simp [aggregateSignals, hB, Option.all]
  · simp only [aggregateSignals, hB, Bool.false_eq_true, if_false]
    split
    · rename_i hcond
      simpa [Option.all] using hcond
    · simp [Option.all]

/-- C9: when the enabled configs for the instrument have total weight 0 but
the best action's weighted score is positive, the JavaScript division yields
`+∞`, `Math.min` caps it at 100, and a resolved signal is emitted whenever
the best action is not HOLD. -/
theorem C9_zero_weight_full_confidence (configs : List (String × StrategyConfig))
    (symbol : String) (signals : List Signal)
    (hne : signals ≠ [])
    (hmp : maxPossibleScore configs symbol = 0)
    (hbest : 0 < actionScore configs signals
      (bestActionOf (actionScore configs signals) (actionKeys signals))) :
    (aggregateSignals configs symbol signals).confidence = JsNum.num 100 ∧
    (bestActionOf (actionScore configs signals) (actionKeys signals) ≠ Action.HOLD →
      (aggregateSignals configs symbol signals).aggregatedSignal.isSome = true) := by
  have hB : signals.isEmpty = false := by
    cases signals with
    | nil => exact absurd rfl hne
    | cons a t => rfl
  have hconf : jsMinHundred (jsDivScaled
      (actionScore configs signals
        (bestActionOf (actionScore configs signals) (actionKeys signals)))
      (maxPossibleScore configs symbol)) = JsNum.num 100 := by
    rw [jsDivScaled, if_pos hmp, if_pos hbest]
    rfl
  constructor
  · simp only [aggregateSignals, hB, Bool.false_eq_true, if_false]
    exact hconf
  · intro hhold
    simp only [aggregateSignals, hB, Bool.false_eq_true, if_false]
    rw [hconf]
    have hgate : (JsNum.num 100).gtQ 50 = true := by decide
    rw [if_pos]
    · rfl
    · simp [hgate, hhold]

/-- C9 witness: a confidence-80 BUY signal with no configured sources at all
(total enabled weight 0, score `80 × 0.33 > 0`) yields confidence 100 and an
emitted resolved signal. -/
theorem C9_zero_weight_witness :
    (aggregateSignals [] "BTCUSDT" [sigEighty]).confidence = JsNum.num 100 ∧
    (aggregateSignals [] "BTCUSDT" [sigEighty]).aggregatedSignal.isSome = true := by
  have h := C9_zero_weight_full_confidence [] "BTCUSDT" [sigEighty]
    (by simp) (by norm_num [maxPossibleScore])
    (by norm_num [actionScore, sourceWeight, actionKeys, bestActionOf, sigEighty, sigZero,
      List.lookup])
  refine ⟨h.1, h.2 ?_⟩
  norm_num [actionKeys, bestActionOf, sigEighty, sigZero]
  exact fun hc => Action.noConfusion hc

/-! ## Risk-engine theorems -/

/-- The function `determineRiskLevel` computes exactly the spec's threshold function of
the daily-loss percentage and the margin usage. -/
theorem determineRiskLevel_eq_spec (limits : RiskLimits)
    (dailyPnL totalBalance marginUsage : ℚ) :
    determineRiskLevel limits dailyPnL totalBalance marginUsage
      = specRiskLevel limits.dailyLossLimit (|dailyPnL / totalBalance| * 100) marginUsage := by
  simp only [determineRiskLevel, specRiskLevel]
  rw [mul_comm limits.dailyLossLimit ((8:ℚ)/10), mul_comm limits.dailyLossLimit ((6:ℚ)/10),
      mul_comm limits.dailyLossLimit ((3:ℚ)/10)]

/-- C4: every recomputed risk snapshot classifies its level by the stated
thresholds on the daily-loss percentage and margin usage, and the
trade-allowed flag is exactly the negation of the level being CRITICAL (in
particular it is false only when the level is CRITICAL). -/
theorem C4_risk_level_thresholds (limits : RiskLimits)
    (totalBalance availableBalance totalUnrealizedPnl dailyPnL maxDrawdownValue
      totalMarginUsed : ℚ) :
    (riskSnapshot limits totalBalance availableBalance totalUnrealizedPnl dailyPnL
        maxDrawdownValue totalMarginUsed).riskLevel
      = specRiskLevel limits.dailyLossLimit (|dailyPnL / totalBalance| * 100)
          ((riskSnapshot limits totalBalance availableBalance totalUnrealizedPnl dailyPnL
            maxDrawdownValue totalMarginUsed).marginUsage) ∧
    (riskSnapshot limits totalBalance availableBalance totalUnrealizedPnl dailyPnL
        maxDrawdownValue totalMarginUsed).isTradeAllowed
      = !((riskSnapshot limits totalBalance availableBalance totalUnrealizedPnl dailyPnL
            maxDrawdownValue totalMarginUsed).riskLevel == RiskLevel.CRITICAL) := by
  constructor
  · simp only [riskSnapshot]
    exact determineRiskLevel_eq_spec limits dailyPnL totalBalance _
  · simp only [riskSnapshot]

/-- C10: the risk level depends only on the absolute value of the daily PnL,
so a gain is classified exactly like a loss of equal magnitude. -/
theorem C10_risk_level_sign_blind (limits : RiskLimits) (x totalBalance marginUsage : ℚ) :
    determineRiskLevel limits x totalBalance marginUsage
      = determineRiskLevel limits (-x) totalBalance marginUsage := by
  simp only [determineRiskLevel, neg_div, abs_neg]

/-- C5 — counterexample to the claim as stated: when the global trade-allowed
gate rejects (here: a snapshot with trading blocked), `validatePosition`
returns early and the assessment carries `stopLoss = 0`, not
`price − (0.02 × totalBalance)/quantity`. -/
theorem C5_rejection_stoploss_counterexample :
    (validatePosition (some metricsBlocked) limitsW "BTCUSDT" PosSide.LONG 1 5 100).isAllowed
      = false ∧
    (validatePosition (some metricsBlocked) limitsW "BTCUSDT" PosSide.LONG 1 5 100).stopLoss
      = 0 ∧
    (100:ℚ) - (2/100) * metricsBlocked.totalBalance / 1 ≠ 0 := by
  refine ⟨rfl, rfl, ?_⟩
  norm_num [metricsBlocked]

/-- C5 (amended): whenever the global trade-allowed gate passes, the returned
assessment — including leverage or position-size rejections — carries the
suggested stop-loss `price ∓ (0.02 × totalBalance)/quantity`; when the gate
rejects, the assessment carries `stopLoss = 0` instead. -/
theorem C5_stoploss_when_trade_allowed (m : RiskMetrics) (limits : RiskLimits)
    (symbol : String) (side : PosSide) (size leverage price : ℚ)
    (hallow : m.isTradeAllowed = true) :
    (validatePosition (some m) limits symbol side size leverage price).stopLoss
      = (if side = PosSide.LONG then price - (2/100) * m.totalBalance / size
         else price + (2/100) * m.totalBalance / size) := by
  simp only [validatePosition, hallow, Bool.not_true, Bool.false_eq_true, if_false]
  split <;> ring

/-- C5 witness: the amended stop-loss formula at a healthy snapshot with
balance 1000, LONG, quantity 1, price 100. -/
theorem C5_stoploss_witness :
    (validatePosition (some metricsOk) limitsW "BTCUSDT" PosSide.LONG 1 5 100).stopLoss
      = (if PosSide.LONG = PosSide.LONG then (100:ℚ) - (2/100) * metricsOk.totalBalance / 1
         else (100:ℚ) + (2/100) * metricsOk.totalBalance / 1) :=
  C5_stoploss_when_trade_allowed metricsOk limitsW "BTCUSDT" PosSide.LONG 1 5 100 rfl

/-- C8: position sizing fails, with the risk-metrics-unavailable error and no
order created, exactly when no risk snapshot exists; with any snapshot it
returns a proposal without error. -/
theorem C8_sizing_fails_iff_no_snapshot (limits : RiskLimits) (defaultLeverage : ℚ)
    (signal : Signal) (currentPrice : ℚ) :
    calculateOptimalPositionSize limits defaultLeverage none signal currentPrice
      = .error .riskMetricsNotAvailable ∧
    orderCreatedForSizing
      (calculateOptimalPositionSize limits defaultLeverage none signal currentPrice) = false ∧
    ∀ m : RiskMetrics, ∃ p : PositionSize,
      calculateOptimalPositionSize limits defaultLeverage (some m) signal currentPrice
        = .ok p :=
  ⟨rfl, rfl, fun _ => ⟨_, rfl⟩⟩

/-! ## Simulated-fill theorems -/

/-- C1 — the code charges no net fee on a simulated SELL: with quantity 1,
executed price 100 and balance 100000, the fee is computed as `0.04` but the
balance update `+= cost - fee` (where `cost` already includes the fee) adds
exactly the notional `100`, not `100 − 0.04` as the claim states; the BUY
branch does subtract `notional + fee`. -/
theorem C1_sell_fee_not_deducted :
    simulateFill OrderSide.SELL 1 100 100000 = (1/25, 100100) ∧
    (simulateFill OrderSide.SELL 1 100 100000).2 - 100000 = 1 * 100 ∧
    (simulateFill OrderSide.SELL 1 100 100000).2 - 100000 ≠ 1 * 100 - 1/25 ∧
    (simulateFill OrderSide.BUY 1 100 100000).1 = (4/10000) * (1 * 100) ∧
    (simulateFill OrderSide.BUY 1 100 100000).2 - 100000 = -(1 * 100 + 1/25) := by
  refine ⟨?_, ?_, ?_, ?_, ?_⟩ <;> norm_num [simulateFill, Prod.ext_iff]

/-! ## Position-replay theorems -/

/-- C6 — counterexample to the claim as stated: replaying a filled BUY of 3
at price 10 followed by a filled SELL of 1 at price 20 leaves a position of
size 2 with entry price 15, whereas the claimed weighted-average formula
`(oldEntry×oldSize + fillPrice×fillQty)/newSize` gives `(10×3 + 20×1)/2 = 25`
for that SELL. -/
theorem C6_sell_entry_price_counterexample :
    (getSimulatedPositions [orderBuy3, orderSell1]).map (fun p => (p.size, p.entryPrice))
      = [((2:ℚ), (15:ℚ))] ∧
    ((15:ℚ) ≠ (10 * 3 + 20 * 1) / 2) := by
  constructor
  · simp [getSimulatedPositions, applyFilledOrder, orderBuy3, orderSell1]
    norm_num
  · norm_num

/-- C6 (amended): applying a filled BUY to an existing position whose size
stays positive sets the entry price to the claimed weighted average
`(oldEntry×oldSize + fillPrice×fillQty)/newSize`; for a filled SELL the code
instead uses the already-decremented size twice, giving
`(oldEntry×(oldSize − 2×fillQty) + fillPrice×fillQty)/newSize`; and every
position in the returned open-position view has strictly positive size. -/
theorem C6_replay_entry_price_and_filter :
    (∀ (positions : List Position) (o : Order) (existing : Position),
        o.status = OrderStatus.FILLED → o.side = OrderSide.BUY →
        positions.find? (fun p => p.symbol == o.symbol) = some existing →
        0 < existing.size + o.executedQty →
        ∀ p' ∈ applyFilledOrder positions o, p'.symbol = o.symbol →
          p'.entryPrice = (existing.entryPrice * existing.size
            + o.averagePrice * o.executedQty) / (existing.size + o.executedQty)) ∧
    (∀ (positions : List Position) (o : Order) (existing : Position),
        o.status = OrderStatus.FILLED → o.side = OrderSide.SELL →
        positions.find? (fun p => p.symbol == o.symbol) = some existing →
        0 < existing.size - o.executedQty →
        ∀ p' ∈ applyFilledOrder positions o, p'.symbol = o.symbol →
          p'.entryPrice = (existing.entryPrice * (existing.size - 2 * o.executedQty)
            + o.averagePrice * o.executedQty) / (existing.size - o.executedQty)) ∧
    (∀ (orderHistory : List Order) (p : Position),
        p ∈ getSimulatedPositions orderHistory → 0 < p.size) := by
  refine ⟨?_, ?_, ?_⟩
  · intro positions o existing hst hsd hfind hpos p' hp' hsym
    rw [applyFilledOrder, hst] at hp'
    simp only [beq_self_eq_true, if_true, hfind, hsd] at hp'
    obtain ⟨q, hq, hq'⟩ := List.mem_map.mp hp'
    by_cases hqs : q.symbol == o.symbol
    · rw [if_pos hqs] at hq'
      subst hq'
      simp only [beq_self_eq_true, if_true, if_pos hpos]
      congr 1
      ring
    · rw [if_neg hqs] at hq'
      subst hq'
      exact absurd hsym (by simpa using hqs)
  · intro positions o existing hst hsd hfind hpos p' hp' hsym
    rw [applyFilledOrder, hst] at hp'
    simp only [beq_self_eq_true, if_true, hfind, hsd] at hp'
    obtain ⟨q, hq, hq'⟩ := List.mem_map.mp hp'
    by_cases hqs : q.symbol == o.symbol
    · rw [if_pos hqs] at hq'
      subst hq'
      simp only [show (OrderSide.SELL == OrderSide.BUY) = false from rfl,
        Bool.false_eq_true, if_false, if_pos hpos]
      congr 1
      ring
    · rw [if_neg hqs] at hq'
      subst hq'
      exact absurd hsym (by simpa using hqs)
  · intro orderHistory p hp
    have := (List.mem_filter.mp hp).2
    exact of_decide_eq_true this

/-- C6 witness: a filled BUY of 1 at price 20 applied to a LONG position of
3 at entry 10 yields entry price `(10×3 + 20×1)/(3 + 1) = 12.5`. -/
theorem C6_replay_witness :
    posAfterBuy.entryPrice = (posLong3.entryPrice * posLong3.size
      + orderBuy1At20.averagePrice * orderBuy1At20.executedQty)
      / (posLong3.size + orderBuy1At20.executedQty) := by
  apply C6_replay_entry_price_and_filter.1 [posLong3] orderBuy1At20 posLong3 rfl rfl
  · simp [posLong3, orderBuy1At20, orderBuy3]
  · norm_num [posLong3, orderBuy1At20, orderBuy3]
  · show posAfterBuy ∈ applyFilledOrder [posLong3] orderBuy1At20
    norm_num [applyFilledOrder, posLong3, posAfterBuy, orderBuy1At20, orderBuy3]
  · rfl

/-! ## Emergency-stop theorems -/

/-- Marking one order CANCELED in the history preserves which order ids can
be found. -/
theorem find_isSome_after_cancel_mark (l : List Order) (i j : ℕ) :
    ((l.map (fun o => if o.id == i then { o with status := OrderStatus.CANCELED } else o)).find?
      (fun o => o.id == j)).isSome
      = (l.find? (fun o => o.id == j)).isSome := by
  rw [List.find?_map]
  have hfun : ((fun (o : Order) => o.id == j) ∘
      (fun o => if o.id == i then { o with status := OrderStatus.CANCELED } else o))
      = fun o => o.id == j := by
    funext o
    simp only [Function.comp_apply]
    split <;> rfl
  rw [hfun, Option.isSome_map']

/-- Folding `cancelOrder` over a list of ids that covers every tracked order,
each of which can be found in the history, empties the pending-order map. -/
theorem foldl_cancel_pending_nil :
    ∀ (ids : List ℕ) (s : ExecState),
      (∀ pr ∈ s.pendingOrders, pr.1 ∈ ids ∧
          (s.orderHistory.find? (fun o => o.id == pr.1)).isSome = true) →
      (ids.foldl (fun st i => (cancelOrderSim st i).1) s).pendingOrders = [] := by
  intro ids
  induction ids with
  | nil =>
    intro s h
    simp only [List.foldl_nil]
    cases hp : s.pendingOrders with
    | nil => rfl
    | cons pr t => exact absurd ((h pr (by rw [hp]; simp)).1) (List.not_mem_nil _)
  | cons i rest ih =>
    intro s h
    simp only [List.foldl_cons]
    apply ih
    intro pr hpr
    rcases hfind : s.orderHistory.find? (fun o => o.id == i) with _ | o
    · rw [cancelOrderSim, hfind] at hpr
      obtain ⟨hmem, hsome⟩ := h pr hpr
      refine ⟨?_, ?_⟩
      · rcases List.mem_cons.mp hmem with h1 | h1
        · exfalso
          rw [h1, hfind] at hsome
          exact Bool.noConfusion hsome
        · exact h1
      · rw [cancelOrderSim, hfind]
        exact hsome
    · rw [cancelOrderSim, hfind] at hpr
      simp only at hpr
      obtain ⟨hmem0, hneq⟩ := List.mem_filter.mp hpr
      obtain ⟨hmem, hsome⟩ := h pr hmem0
      refine ⟨?_, ?_⟩
      · rcases List.mem_cons.mp hmem with h1 | h1
        · exfalso
          rw [h1] at hneq
          simp at hneq
        · exact h1
      · rw [cancelOrderSim, hfind]
        simp only
        rw [find_isSome_after_cancel_mark]
        exact hsome

/-- Close-all is a no-op when there is no open position. -/
theorem closeAll_no_positions (logFn : ℚ → ℚ) (s : ExecState)
    (hnopos : getSimulatedPositions s.orderHistory = []) :
    closeAllPositionsSim logFn s = s := by
  rw [closeAllPositionsSim, hnopos]
  rfl

/-- C2 — counterexample to the claim as stated: from the normal simulated
state with one filled BUY in the history (an open position) and nothing
pending, emergency stop runs close-all, whose closing market order is added
to the pending-orders map after the cancel phase; the monitoring loop is
halted but the map is not empty. -/
theorem C2_emergency_stop_counterexample :
    (emergencyStopSim (fun _ => 0) execStateOpen).pendingOrders
      = [(1, { orderId := 1, status := ExecStatus.PENDING, attempts := 0 })] ∧
    (emergencyStopSim (fun _ => 0) execStateOpen).pendingOrders ≠ [] ∧
    (emergencyStopSim (fun _ => 0) execStateOpen).isExecuting = false := by
  refine ⟨?_, ?_, ?_⟩ <;>
    norm_num [emergencyStopSim, cancelAllPendingPhase, closeAllPositionsSim,
      closeSimulatedPositionSim, createOrderSim, simulateOrderExecution, simulateFill,
      calculateSlippage, applySlippage, orElseNum, stopOrderExecutionSim,
      getSimulatedPositions, applyFilledOrder, cancelOrderSim, execStateOpen, orderBuy3,
      List.lookup]

/-- C2 (amended): after emergency stop the monitoring loop is halted, and the
pending-orders map is empty provided every order tracked at invocation is
present in the order history (so its cancellation succeeds) and the close-all
step finds no open position (otherwise the unfound entries remain and each
close order is newly tracked). -/
theorem C2_emergency_stop_amended (logFn : ℚ → ℚ) (s : ExecState)
    (hfound : ∀ pr ∈ s.pendingOrders,
      (s.orderHistory.find? (fun o => o.id == pr.1)).isSome = true)
    (hnopos : getSimulatedPositions ((cancelAllPendingPhase s).orderHistory) = []) :
    (emergencyStopSim logFn s).pendingOrders = [] ∧
    (emergencyStopSim logFn s).isExecuting = false := by
  have h1 : (cancelAllPendingPhase s).pendingOrders = [] := by
    apply foldl_cancel_pending_nil
    intro pr hpr
    exact ⟨List.mem_map_of_mem _ hpr, hfound pr hpr⟩
  rw [emergencyStopSim, closeAll_no_positions logFn _ hnopos, stopOrderExecutionSim]
  constructor
  · split <;> exact h1
  · split
    · rfl
    · rename_i hex
      exact Bool.not_eq_true _ ▸ (by simpa using hex)

/-- C2 witness: the amended property at a state whose single pending order is
present in the history; cancelling it also cancels the only fill, so
close-all finds nothing and the map ends empty with the monitor halted. -/
theorem C2_emergency_stop_witness :
    (emergencyStopSim (fun _ => 0) execStateTracked).pendingOrders = [] ∧
    (emergencyStopSim (fun _ => 0) execStateTracked).isExecuting = false :=
  C2_emergency_stop_amended (fun _ => 0) execStateTracked
    (by norm_num [execStateTracked, execStateOpen, orderBuy3])
    (by norm_num [cancelAllPendingPhase, cancelOrderSim, getSimulatedPositions,
      applyFilledOrder, execStateTracked, execStateOpen, orderBuy3]; decide)

end RateTrade
